/-
Verification of the table-rendering widget in `edit_table.py`
(function `display_table`) against its natural-language specification.

The Python function is shallowly embedded: one render call is modelled as a
pure function producing the ordered list of UI events it emits (row
containers, cell placements, "Edit" buttons with their callback payloads,
per-row style injections), together with an optional runtime error
(Python `IndexError` from indexing the `columns` list, or `NameError`
from reading the loop variable `i` before any cell loop has run: in
Python `i` is function-scoped and leaks across iterations of the outer
row loop).
-/
import Mathlib

namespace EditTable

/-- The `column_formatting` argument: either an `int` (count of equal
columns) or a list of relative column widths, mirroring what
`st.columns` accepts. -/
inductive ColFmt where
  | count (n : Nat)
  | widths (w : List Nat)
deriving DecidableEq, Repr

/-- Python truthiness of a `ColFmt` value: `0` and `[]` are falsy. -/
def ColFmt.truthy : ColFmt → Bool
  | .count n => n != 0
  | .widths w => !w.isEmpty

/-- Number of column slots `st.columns` creates for a given spec. -/
def ColFmt.slots : ColFmt → Nat
  | .count n => n
  | .widths w => w.length

/-- The keyword arguments of `display_table`, plus the ambient theme value
`st.get_option("theme.secondaryBackgroundColor")` read by the function.
`edit_function` records whether a callable was supplied (the Python
default is `False`); the callback itself is observed only through the
payload passed to it, which the event trace records. -/
structure Config where
  column_formatting : Option ColFmt
  edit_function : Bool
  has_header : Bool
  header_color : Option String
  alternating_row_colors : Bool
  secondaryBackgroundColor : String
deriving DecidableEq, Repr

/-- Python truthiness of the `header_color` argument (`None` and `""` are
falsy, any other string is truthy). -/
def strTruthy : Option String → Bool
  | none => false
  | some s => !(s == "")

/-- `style = st.get_option(...) if alternating_row_colors and (j+1)%2 != 0
else 'transparent'` — the non-header branch of the style computation. -/
def altStyle (cfg : Config) (j : Nat) : String :=
  if cfg.alternating_row_colors && (j + 1) % 2 != 0 then
    cfg.secondaryBackgroundColor
  else "transparent"

/-- The background style resolved for row `j`:
`if j == 0 and header_color: style = header_color else: ...`. -/
def styleFor (cfg : Config) (j : Nat) : String :=
  match cfg.header_color with
  | some c => if j == 0 && c != "" then c else altStyle cfg j
  | none => altStyle cfg j

/-- Decimal digit to its ASCII character (used to render `f"row_{j}"`). -/
def digitChar (d : Nat) : Char := Char.ofNat (48 + d)

/-- Decimal rendering of a natural number as an f-string would produce,
written with a fuel argument (`fuel ≥ n` suffices) so that it reduces by
kernel computation. -/
def natStrGo : Nat → Nat → List Char
  | 0, n => [digitChar (n % 10)]
  | fuel + 1, n =>
    if n < 10 then [digitChar n]
    else natStrGo fuel (n / 10) ++ [digitChar (n % 10)]

/-- Decimal rendering of a natural number, as Python string formatting
produces for a row index. -/
def natStr (n : Nat) : String := ⟨natStrGo n n⟩

/-- The container key `f"row_{j}"`. -/
def rowKey (j : Nat) : String := "row_" ++ natStr j

/-- The button key `f"edit_{j}"`. -/
def editKey (j : Nat) : String := "edit_" ++ natStr j

/-- One observable UI emission of a render call. `cell` records the slot
index, the text and whether the text was wrapped in `"***"` markdown
emphasis (the `j == 0` branch). `editButton` records the slot index, the
widget key, and the payload the callback receives on activation
(`row[0]`; `none` when the row is empty, where the access itself would
raise). `rowStyle` is the `st.html` style injection for the row's
container. -/
inductive Event where
  | rowStart (j : Nat) (key : String)
  | cell (j slot : Nat) (text : String) (emphasized : Bool)
  | editButton (j slot : Nat) (key : String) (payload : Option String)
  | rowStyle (j : Nat) (style : String)
deriving DecidableEq, Repr

/-- A Python runtime error the render call can raise: `IndexError` from
`columns[k]` with `k` out of range, or `NameError` from reading a local
variable that was never bound. -/
inductive RenderError where
  | indexError (idx : Nat)
  | nameError (var : String)
deriving DecidableEq, Repr

/-- The visible cells of a row:
`row[1:] if edit_function else row`. -/
def visibleCells (cfg : Config) (row : List String) : List String :=
  if cfg.edit_function then row.drop 1 else row

/-- The number of column slots allocated for a row:
`st.columns(len(row) if not column_formatting else column_formatting)`. -/
def slotsForRow (cfg : Config) (row : List String) : Nat :=
  match cfg.column_formatting with
  | some f => if f.truthy then f.slots else row.length
  | none => row.length

/-- The cell loop `for i, col in enumerate(visible): columns[i].…`.
`i` is the next enumeration index; indexing `columns[i]` with
`i ≥ slots` raises `IndexError` before that cell is placed. Returns the
events emitted and the error, if any, that aborted the loop. -/
def renderCellsAux (j slots : Nat) (i : Nat) : List String → List Event × Option RenderError
  | [] => ([], none)
  | c :: rest =>
    if i < slots then
      let r := renderCellsAux j slots (i + 1) rest
      (Event.cell j i c (j == 0) :: r.1, r.2)
    else ([], some (.indexError i))

/-- Result of rendering one row: its events, the value of the
function-scoped loop variable `i` after the row (unchanged when the cell
loop did not run — this is the Python leak), and the error, if any, that
aborted the call. -/
structure RowResult where
  events : List Event
  iOut : Option Nat
  err : Option RenderError
deriving DecidableEq, Repr

/-- The body of `for j, row in enumerate(table_data)` for one row:
open the `row_{j}` container, allocate columns, run the cell loop, then
`if edit_function and (j != 0 or not has_header)` place the Edit button
at `columns[i+1]` using the current (possibly leaked, possibly unbound)
value of `i`. -/
def renderRow (cfg : Config) (j : Nat) (row : List String) (iIn : Option Nat) : RowResult :=
  let slots := slotsForRow cfg row
  let visible := visibleCells cfg row
  let cellRes := renderCellsAux j slots 0 visible
  let iOut := if visible.isEmpty then iIn else some (visible.length - 1)
  let base := Event.rowStart j (rowKey j) :: cellRes.1
  match cellRes.2 with
  | some e => ⟨base, iOut, some e⟩
  | none =>
    if cfg.edit_function && (j != 0 || !cfg.has_header) then
      match iOut with
      | none => ⟨base, iOut, some (.nameError "i")⟩
      | some i =>
        if i + 1 < slots then
          ⟨base ++ [Event.editButton j (i + 1) (editKey j) row.head?], iOut, none⟩
        else ⟨base, iOut, some (.indexError (i + 1))⟩
    else ⟨base, iOut, none⟩

/-- The row loop: render each row, then inject its background style
(`st.html(f"<style> .st-key-row_{j} …")`). A raised error propagates out
of the whole call; later rows are not rendered. -/
def renderLoop (cfg : Config) (rows : List (List String)) (j : Nat) (iIn : Option Nat) :
    List Event × Option RenderError :=
  match rows with
  | [] => ([], none)
  | row :: rest =>
    let r := renderRow cfg j row iIn
    match r.err with
    | some e => (r.events, some e)
    | none =>
      let res := renderLoop cfg rest (j + 1) r.iOut
      (r.events ++ Event.rowStyle j (styleFor cfg j) :: res.1, res.2)

/-- `display_table(table_data, …)`: the full render call, starting at row
index 0 with the loop variable `i` not yet bound. -/
def display_table (cfg : Config) (table_data : List (List String)) :
    List Event × Option RenderError :=
  renderLoop cfg table_data 0 none

/-- The texts of the cells placed in row `j`, in emission order. -/
def cellTexts (evs : List Event) (j : Nat) : List String :=
  evs.filterMap fun e => match e with
    | .cell j' _ t _ => if j' = j then some t else none
    | _ => none

/-- The emphasis flags of the cells placed in row `j`, in emission order. -/
def cellEmphs (evs : List Event) (j : Nat) : List Bool :=
  evs.filterMap fun e => match e with
    | .cell j' _ _ b => if j' = j then some b else none
    | _ => none

/-- The Edit buttons placed in row `j`: slot index and callback payload. -/
def editsAt (evs : List Event) (j : Nat) : List (Nat × Option String) :=
  evs.filterMap fun e => match e with
    | .editButton j' s _ p => if j' = j then some (s, p) else none
    | _ => none

/-- The background styles injected for row `j`. -/
def stylesAt (evs : List Event) (j : Nat) : List String :=
  evs.filterMap fun e => match e with
    | .rowStyle j' s => if j' = j then some s else none
    | _ => none

/-- The identity keys of the row containers, in emission order. -/
def rowKeysOf (evs : List Event) : List String :=
  evs.filterMap fun e => match e with
    | .rowStart _ k => some k
    | _ => none

/-- The row index carried by an event. -/
def Event.idx : Event → Nat
  | .rowStart j _ => j
  | .cell j _ _ _ => j
  | .editButton j _ _ _ => j
  | .rowStyle j _ => j

/-! ### Concrete argument combinations used to instantiate the claims -/

/-- `edit_function` set, `has_header=False`, no layout / colors. -/
def cfgEditNoHeader : Config := ⟨none, true, false, none, false, "#e8e8e8"⟩

/-- `edit_function` set, `has_header=True` (the defaults plus a callback). -/
def cfgEditHeader : Config := ⟨none, true, true, none, false, "#e8e8e8"⟩

/-- No callback, `has_header=False`. -/
def cfgPlainNoHeader : Config := ⟨none, false, false, none, false, "#e8e8e8"⟩

/-- No callback, defaults, `alternating_row_colors=True`. -/
def cfgAlternating : Config := ⟨none, false, true, none, true, "#f0f2f6"⟩

/-- No callback, defaults, `header_color='red'`. -/
def cfgHeaderColor : Config := ⟨none, false, true, some "red", false, "#f0f2f6"⟩

/-- `column_formatting=1` (a single column slot), no callback. -/
def cfgOneSlot : Config := ⟨some (.count 1), false, true, none, false, "#f0f2f6"⟩

/-- `column_formatting=3`, `edit_function` set, `has_header=False`. -/
def cfgThreeSlotsEdit : Config := ⟨some (.count 3), true, false, none, false, "#f0f2f6"⟩

/-- The two-data-row input of the spec's concrete scenario. -/
def dataAB : List (List String) := [["1", "Alice", "30"], ["2", "Bob", "25"]]

/-! ### Injectivity of the decimal key rendering -/

/-- Decimal value of a digit-character list (left inverse of `natStrGo`). -/
def charsVal (l : List Char) : Nat :=
  l.foldl (fun a c => 10 * a + (c.toNat - 48)) 0

lemma digitChar_val (d : Nat) (hd : d < 10) : (digitChar d).toNat - 48 = d := by
  interval_cases d <;> decide

lemma charsVal_append_digit (l : List Char) (c : Char) :
    charsVal (l ++ [c]) = 10 * charsVal l + (c.toNat - 48) := by
  simp [charsVal, List.foldl_append]

lemma charsVal_natStrGo : ∀ fuel n, n ≤ fuel → charsVal (natStrGo fuel n) = n := by
  intro fuel
  induction fuel with
  | zero =>
    intro n hn
    have h0 : n = 0 := Nat.le_zero.mp hn
    subst h0
    decide
  | succ fuel ih =>
    intro n hn
    by_cases h : n < 10
    · simp only [natStrGo, if_pos h, charsVal, List.foldl]
      have := digitChar_val n h
      omega
    · have h10 : 10 ≤ n := by omega
      have hdiv : n / 10 < n := Nat.div_lt_self (by omega) (by omega)
      have hle : n / 10 ≤ fuel := by omega
      simp only [natStrGo, if_neg h]
      rw [charsVal_append_digit, ih _ hle,
        digitChar_val _ (Nat.mod_lt n (by omega))]
      exact Nat.div_add_mod n 10


lemma natStr_inj {m n : Nat} (h : natStr m = natStr n) : m = n := by
  have hd : natStrGo m m = natStrGo n n := congrArg String.data h
  have h1 := charsVal_natStrGo m m (le_refl m)
  have h2 := charsVal_natStrGo n n (le_refl n)
  rw [hd] at h1
  omega

/-! ### Lemmas about the cell loop -/

lemma renderCellsAux_err_iff (j slots : Nat) :
    ∀ (cells : List String) (i : Nat),
      (renderCellsAux j slots i cells).2 = none ↔ cells.length ≤ slots - i := by
  intro cells
  induction cells with
  | nil => intro i; simp [renderCellsAux]
  | cons c rest ih =>
    intro i
    by_cases hi : i < slots
    · simp only [renderCellsAux, if_pos hi]
      rw [ih (i + 1)]
      constructor <;> (intro h; simp at h ⊢; omega)
    · simp only [renderCellsAux, if_neg hi]
      constructor
      · intro h; simp at h
      · intro h; simp at h; omega

lemma renderCellsAux_texts (j slots : Nat) :
    ∀ (cells : List String) (i : Nat), i + cells.length ≤ slots →
      cellTexts (renderCellsAux j slots i cells).1 j = cells := by
  intro cells
  induction cells with
  | nil => intro i _; simp [renderCellsAux, cellTexts]
  | cons c rest ih =>
    intro i h
    have hi : i < slots := by simp at h; omega
    simp only [renderCellsAux, if_pos hi]
    have := ih (i + 1) (by simp at h ⊢; omega)
    simp [cellTexts] at this ⊢
    exact this

lemma renderCellsAux_emphs (j slots : Nat) :
    ∀ (cells : List String) (i : Nat), i + cells.length ≤ slots →
      cellEmphs (renderCellsAux j slots i cells).1 j
        = List.replicate cells.length (j == 0) := by
  intro cells
  induction cells with
  | nil => intro i _; simp [renderCellsAux, cellEmphs]
  | cons c rest ih =>
    intro i h
    have hi : i < slots := by simp at h; omega
    simp only [renderCellsAux, if_pos hi]
    have := ih (i + 1) (by simp at h ⊢; omega)
    simp [cellEmphs, List.replicate_succ] at this ⊢
    exact this

lemma renderCellsAux_shape (j slots : Nat) :
    ∀ (cells : List String) (i : Nat), ∀ e ∈ (renderCellsAux j slots i cells).1,
      ∃ s t, e = Event.cell j s t (j == 0) := by
  intro cells
  induction cells with
  | nil => intro i e he; simp [renderCellsAux] at he
  | cons c rest ih =>
    intro i e he
    by_cases hi : i < slots
    · simp only [renderCellsAux, if_pos hi, List.mem_cons] at he
      rcases he with h | h
      · exact ⟨i, c, h⟩
      · exact ih (i + 1) e h
    · simp [renderCellsAux, if_neg hi] at he

lemma renderCellsAux_over (j slots : Nat) :
    ∀ (cells : List String) (i : Nat), i ≤ slots → slots < i + cells.length →
      (renderCellsAux j slots i cells).2 = some (.indexError slots) ∧
        cellTexts (renderCellsAux j slots i cells).1 j = cells.take (slots - i) := by
  intro cells
  induction cells with
  | nil => intro i hle hlt; simp at hlt; omega
  | cons c rest ih =>
    intro i hle hlt
    by_cases hi : i < slots
    · have h1 := ih (i + 1) (by omega) (by simp at hlt ⊢; omega)
      simp only [renderCellsAux, if_pos hi]
      refine ⟨h1.1, ?_⟩
      have hs : slots - i = (slots - (i + 1)) + 1 := by omega
      rw [hs]
      simp [cellTexts] at h1 ⊢
      exact h1.2
    · have hi' : i = slots := by omega
      subst hi'
      simp [renderCellsAux, cellTexts]

/-! ### Extraction functions return nothing for rows without matching events -/

lemma cellTexts_nil_of_idx (j : Nat) :
    ∀ (evs : List Event), (∀ e ∈ evs, Event.idx e ≠ j) → cellTexts evs j = [] := by
  intro evs
  induction evs with
  | nil => intro _; simp [cellTexts]
  | cons e rest ih =>
    intro h
    have he := h e (List.mem_cons_self e rest)
    have hr := ih (fun e' he' => h e' (List.mem_cons_of_mem e he'))
    cases e <;> (simp [cellTexts, Event.idx] at he hr ⊢; first | exact hr | exact ⟨he, hr⟩)

lemma cellEmphs_nil_of_idx (j : Nat) :
    ∀ (evs : List Event), (∀ e ∈ evs, Event.idx e ≠ j) → cellEmphs evs j = [] := by
  intro evs
  induction evs with
  | nil => intro _; simp [cellEmphs]
  | cons e rest ih =>
    intro h
    have he := h e (List.mem_cons_self e rest)
    have hr := ih (fun e' he' => h e' (List.mem_cons_of_mem e he'))
    cases e <;> (simp [cellEmphs, Event.idx] at he hr ⊢; first | exact hr | exact ⟨he, hr⟩)

lemma editsAt_nil_of_idx (j : Nat) :
    ∀ (evs : List Event), (∀ e ∈ evs, Event.idx e ≠ j) → editsAt evs j = [] := by
  intro evs
  induction evs with
  | nil => intro _; simp [editsAt]
  | cons e rest ih =>
    intro h
    have he := h e (List.mem_cons_self e rest)
    have hr := ih (fun e' he' => h e' (List.mem_cons_of_mem e he'))
    cases e <;> (simp [editsAt, Event.idx] at he hr ⊢; first | exact hr | exact ⟨he, hr⟩)

lemma stylesAt_nil_of_idx (j : Nat) :
    ∀ (evs : List Event), (∀ e ∈ evs, Event.idx e ≠ j) → stylesAt evs j = [] := by
  intro evs
  induction evs with
  | nil => intro _; simp [stylesAt]
  | cons e rest ih =>
    intro h
    have he := h e (List.mem_cons_self e rest)
    have hr := ih (fun e' he' => h e' (List.mem_cons_of_mem e he'))
    cases e <;> (simp [stylesAt, Event.idx] at he hr ⊢; first | exact hr | exact ⟨he, hr⟩)

/-! ### Computation rules for the extraction functions -/

@[simp] lemma cellTexts_nil (j : Nat) : cellTexts [] j = [] := rfl

@[simp] lemma cellTexts_cons_rowStart (a j : Nat) (k : String) (evs : List Event) :
    cellTexts (Event.rowStart a k :: evs) j = cellTexts evs j := by simp [cellTexts]

@[simp] lemma cellTexts_cons_cell (a s j : Nat) (t : String) (b : Bool) (evs : List Event) :
    cellTexts (Event.cell a s t b :: evs) j
      = if a = j then t :: cellTexts evs j else cellTexts evs j := by
  by_cases h : a = j <;> simp [cellTexts, h]

@[simp] lemma cellTexts_cons_editButton (a s j : Nat) (k : String) (p : Option String)
    (evs : List Event) :
    cellTexts (Event.editButton a s k p :: evs) j = cellTexts evs j := by simp [cellTexts]

@[simp] lemma cellTexts_cons_rowStyle (a j : Nat) (st : String) (evs : List Event) :
    cellTexts (Event.rowStyle a st :: evs) j = cellTexts evs j := by simp [cellTexts]

@[simp] lemma cellTexts_append (l1 l2 : List Event) (j : Nat) :
    cellTexts (l1 ++ l2) j = cellTexts l1 j ++ cellTexts l2 j := by
  simp [cellTexts, List.filterMap_append]

@[simp] lemma cellEmphs_nil (j : Nat) : cellEmphs [] j = [] := rfl

@[simp] lemma cellEmphs_cons_rowStart (a j : Nat) (k : String) (evs : List Event) :
    cellEmphs (Event.rowStart a k :: evs) j = cellEmphs evs j := by simp [cellEmphs]

@[simp] lemma cellEmphs_cons_cell (a s j : Nat) (t : String) (b : Bool) (evs : List Event) :
    cellEmphs (Event.cell a s t b :: evs) j
      = if a = j then b :: cellEmphs evs j else cellEmphs evs j := by
  by_cases h : a = j <;> simp [cellEmphs, h]

@[simp] lemma cellEmphs_cons_editButton (a s j : Nat) (k : String) (p : Option String)
    (evs : List Event) :
    cellEmphs (Event.editButton a s k p :: evs) j = cellEmphs evs j := by simp [cellEmphs]

@[simp] lemma cellEmphs_cons_rowStyle (a j : Nat) (st : String) (evs : List Event) :
    cellEmphs (Event.rowStyle a st :: evs) j = cellEmphs evs j := by simp [cellEmphs]

@[simp] lemma cellEmphs_append (l1 l2 : List Event) (j : Nat) :
    cellEmphs (l1 ++ l2) j = cellEmphs l1 j ++ cellEmphs l2 j := by
  simp [cellEmphs, List.filterMap_append]

@[simp] lemma editsAt_nil (j : Nat) : editsAt [] j = [] := rfl

@[simp] lemma editsAt_cons_rowStart (a j : Nat) (k : String) (evs : List Event) :
    editsAt (Event.rowStart a k :: evs) j = editsAt evs j := by simp [editsAt]

@[simp] lemma editsAt_cons_cell (a s j : Nat) (t : String) (b : Bool) (evs : List Event) :
    editsAt (Event.cell a s t b :: evs) j = editsAt evs j := by simp [editsAt]

@[simp] lemma editsAt_cons_editButton (a s j : Nat) (k : String) (p : Option String)
    (evs : List Event) :
    editsAt (Event.editButton a s k p :: evs) j
      = if a = j then (s, p) :: editsAt evs j else editsAt evs j := by
  by_cases h : a = j <;> simp [editsAt, h]

@[simp] lemma editsAt_cons_rowStyle (a j : Nat) (st : String) (evs : List Event) :
    editsAt (Event.rowStyle a st :: evs) j = editsAt evs j := by simp [editsAt]

@[simp] lemma editsAt_append (l1 l2 : List Event) (j : Nat) :
    editsAt (l1 ++ l2) j = editsAt l1 j ++ editsAt l2 j := by
  simp [editsAt, List.filterMap_append]

@[simp] lemma stylesAt_nil (j : Nat) : stylesAt [] j = [] := rfl

@[simp] lemma stylesAt_cons_rowStart (a j : Nat) (k : String) (evs : List Event) :
    stylesAt (Event.rowStart a k :: evs) j = stylesAt evs j := by simp [stylesAt]

@[simp] lemma stylesAt_cons_cell (a s j : Nat) (t : String) (b : Bool) (evs : List Event) :
    stylesAt (Event.cell a s t b :: evs) j = stylesAt evs j := by simp [stylesAt]

@[simp] lemma stylesAt_cons_editButton (a s j : Nat) (k : String) (p : Option String)
    (evs : List Event) :
    stylesAt (Event.editButton a s k p :: evs) j = stylesAt evs j := by simp [stylesAt]

@[simp] lemma stylesAt_cons_rowStyle (a j : Nat) (st : String) (evs : List Event) :
    stylesAt (Event.rowStyle a st :: evs) j
      = if a = j then st :: stylesAt evs j else stylesAt evs j := by
  by_cases h : a = j <;> simp [stylesAt, h]

@[simp] lemma stylesAt_append (l1 l2 : List Event) (j : Nat) :
    stylesAt (l1 ++ l2) j = stylesAt l1 j ++ stylesAt l2 j := by
  simp [stylesAt, List.filterMap_append]

@[simp] lemma rowKeysOf_nil : rowKeysOf [] = [] := rfl

@[simp] lemma rowKeysOf_cons_rowStart (a : Nat) (k : String) (evs : List Event) :
    rowKeysOf (Event.rowStart a k :: evs) = k :: rowKeysOf evs := by simp [rowKeysOf]

@[simp] lemma rowKeysOf_cons_cell (a s : Nat) (t : String) (b : Bool) (evs : List Event) :
    rowKeysOf (Event.cell a s t b :: evs) = rowKeysOf evs := by simp [rowKeysOf]

@[simp] lemma rowKeysOf_cons_editButton (a s : Nat) (k : String) (p : Option String)
    (evs : List Event) :
    rowKeysOf (Event.editButton a s k p :: evs) = rowKeysOf evs := by simp [rowKeysOf]

@[simp] lemma rowKeysOf_cons_rowStyle (a : Nat) (st : String) (evs : List Event) :
    rowKeysOf (Event.rowStyle a st :: evs) = rowKeysOf evs := by simp [rowKeysOf]

@[simp] lemma rowKeysOf_append (l1 l2 : List Event) :
    rowKeysOf (l1 ++ l2) = rowKeysOf l1 ++ rowKeysOf l2 := by
  simp [rowKeysOf, List.filterMap_append]

/-- The cell loop emits no edit buttons. -/
lemma renderCellsAux_edits (j slots : Nat) (cells : List String) (i : Nat) (j' : Nat) :
    editsAt (renderCellsAux j slots i cells).1 j' = [] := by
  induction cells generalizing i with
  | nil => simp [renderCellsAux, editsAt]
  | cons c rest ih =>
    by_cases hi : i < slots
    · simp only [renderCellsAux, if_pos hi]
      simp [editsAt] at ih ⊢
      exact ih (i + 1)
    · simp [renderCellsAux, if_neg hi, editsAt]

/-- The cell loop emits no style injections. -/
lemma renderCellsAux_styles (j slots : Nat) (cells : List String) (i : Nat) (j' : Nat) :
    stylesAt (renderCellsAux j slots i cells).1 j' = [] := by
  induction cells generalizing i with
  | nil => simp [renderCellsAux, stylesAt]
  | cons c rest ih =>
    by_cases hi : i < slots
    · simp only [renderCellsAux, if_pos hi]
      simp [stylesAt] at ih ⊢
      exact ih (i + 1)
    · simp [renderCellsAux, if_neg hi, stylesAt]

/-- Cells emitted for a different row index contribute no texts. -/
lemma renderCellsAux_texts_ne (j slots : Nat) (cells : List String) (i : Nat)
    (j' : Nat) (h : j' ≠ j) : cellTexts (renderCellsAux j slots i cells).1 j' = [] := by
  apply cellTexts_nil_of_idx
  intro e he
  obtain ⟨s, t, rfl⟩ := renderCellsAux_shape j slots cells i e he
  simpa [Event.idx] using fun hc => h hc.symm

lemma renderCellsAux_emphs_ne (j slots : Nat) (cells : List String) (i : Nat)
    (j' : Nat) (h : j' ≠ j) : cellEmphs (renderCellsAux j slots i cells).1 j' = [] := by
  apply cellEmphs_nil_of_idx
  intro e he
  obtain ⟨s, t, rfl⟩ := renderCellsAux_shape j slots cells i e he
  simpa [Event.idx] using fun hc => h hc.symm

/-! ### Lemmas about rendering one row -/

/-- The events of one row are the container opening, the cells the loop
placed, and possibly one trailing Edit button. -/
lemma renderRow_events_shape (cfg : Config) (j : Nat) (row : List String) (iIn : Option Nat) :
    (renderRow cfg j row iIn).events
        = Event.rowStart j (rowKey j)
            :: (renderCellsAux j (slotsForRow cfg row) 0 (visibleCells cfg row)).1 ∨
      ∃ s, (renderRow cfg j row iIn).events
        = Event.rowStart j (rowKey j)
            :: ((renderCellsAux j (slotsForRow cfg row) 0 (visibleCells cfg row)).1
                ++ [Event.editButton j s (editKey j) row.head?]) := by
  simp only [renderRow]
  split
  · exact Or.inl rfl
  · split
    · split
      · exact Or.inl rfl
      · split
        · exact Or.inr ⟨_, rfl⟩
        · exact Or.inl rfl
    · exact Or.inl rfl

/-- A successful row render means the visible cells all fitted into the
allocated column slots. -/
lemma renderRow_err_none_fit (cfg : Config) (j : Nat) (row : List String) (iIn : Option Nat)
    (h : (renderRow cfg j row iIn).err = none) :
    (visibleCells cfg row).length ≤ slotsForRow cfg row := by
  by_contra hlt
  rcases ho : (renderCellsAux j (slotsForRow cfg row) 0 (visibleCells cfg row)).2 with _ | e
  · have := (renderCellsAux_err_iff j (slotsForRow cfg row) (visibleCells cfg row) 0).mp ho
    omega
  · simp [renderRow, ho] at h

lemma renderRow_idx (cfg : Config) (j : Nat) (row : List String) (iIn : Option Nat) :
    ∀ e ∈ (renderRow cfg j row iIn).events, Event.idx e = j := by
  intro e he
  rcases renderRow_events_shape cfg j row iIn with h | ⟨s, h⟩ <;> rw [h] at he
  · rcases List.mem_cons.mp he with rfl | h2
    · rfl
    · obtain ⟨s', t, rfl⟩ := renderCellsAux_shape _ _ _ _ e h2
      rfl
  · rcases List.mem_cons.mp he with rfl | h2
    · rfl
    · rcases List.mem_append.mp h2 with h3 | h3
      · obtain ⟨s', t, rfl⟩ := renderCellsAux_shape _ _ _ _ e h3
        rfl
      · simp only [List.mem_singleton] at h3
        subst h3
        rfl

/-- One row emits no background-style injections (those come from the
outer loop, after the row container closes). -/
lemma renderRow_stylesAt (cfg : Config) (j : Nat) (row : List String) (iIn : Option Nat)
    (j' : Nat) : stylesAt (renderRow cfg j row iIn).events j' = [] := by
  rcases renderRow_events_shape cfg j row iIn with h | ⟨s, h⟩ <;>
    simp [h, renderCellsAux_styles]

/-- On success the cells placed for row `j` are exactly its visible
cells, in order. -/
lemma renderRow_texts (cfg : Config) (j : Nat) (row : List String) (iIn : Option Nat)
    (h : (renderRow cfg j row iIn).err = none) :
    cellTexts (renderRow cfg j row iIn).events j = visibleCells cfg row := by
  have hfit := renderRow_err_none_fit cfg j row iIn h
  have ht := renderCellsAux_texts j (slotsForRow cfg row) (visibleCells cfg row) 0 (by omega)
  rcases renderRow_events_shape cfg j row iIn with he | ⟨s, he⟩ <;> simp [he, ht]

/-- On success the emphasis flags of row `j`'s cells are all `j == 0`:
row 0 is emphasized unconditionally (independently of `has_header`). -/
lemma renderRow_emphs (cfg : Config) (j : Nat) (row : List String) (iIn : Option Nat)
    (h : (renderRow cfg j row iIn).err = none) :
    cellEmphs (renderRow cfg j row iIn).events j
      = List.replicate (visibleCells cfg row).length (j == 0) := by
  have hfit := renderRow_err_none_fit cfg j row iIn h
  have ht := renderCellsAux_emphs j (slotsForRow cfg row) (visibleCells cfg row) 0 (by omega)
  rcases renderRow_events_shape cfg j row iIn with he | ⟨s, he⟩ <;> simp [he, ht]

lemma renderRow_texts_ne (cfg : Config) (j : Nat) (row : List String) (iIn : Option Nat)
    (j' : Nat) (hne : j' ≠ j) :
    cellTexts (renderRow cfg j row iIn).events j' = [] := by
  apply cellTexts_nil_of_idx
  intro e he
  rw [renderRow_idx cfg j row iIn e he]
  exact fun hc => hne hc.symm

lemma renderRow_emphs_ne (cfg : Config) (j : Nat) (row : List String) (iIn : Option Nat)
    (j' : Nat) (hne : j' ≠ j) :
    cellEmphs (renderRow cfg j row iIn).events j' = [] := by
  apply cellEmphs_nil_of_idx
  intro e he
  rw [renderRow_idx cfg j row iIn e he]
  exact fun hc => hne hc.symm

lemma renderRow_edits_ne (cfg : Config) (j : Nat) (row : List String) (iIn : Option Nat)
    (j' : Nat) (hne : j' ≠ j) :
    editsAt (renderRow cfg j row iIn).events j' = [] := by
  apply editsAt_nil_of_idx
  intro e he
  rw [renderRow_idx cfg j row iIn e he]
  exact fun hc => hne hc.symm

/-- On success, row `j` carries an Edit button exactly when
`edit_function and (j != 0 or not has_header)`, and its payload is the
row's first cell `row[0]`. -/
lemma renderRow_edits (cfg : Config) (j : Nat) (row : List String) (iIn : Option Nat)
    (h : (renderRow cfg j row iIn).err = none) :
    (editsAt (renderRow cfg j row iIn).events j).map Prod.snd
      = if cfg.edit_function && (j != 0 || !cfg.has_header) then [row.head?] else [] := by
  rcases ho : (renderCellsAux j (slotsForRow cfg row) 0 (visibleCells cfg row)).2 with _ | e
  · by_cases hcond : (cfg.edit_function && (j != 0 || !cfg.has_header)) = true
    · by_cases hemp : visibleCells cfg row = []
      · rcases iIn with _ | i
        · simp [renderRow, hcond, hemp, renderCellsAux] at h
        · by_cases hlt : i + 1 < slotsForRow cfg row
          · simp [renderRow, hcond, hemp, hlt, renderCellsAux]
          · simp [renderRow, hcond, hemp, hlt, renderCellsAux] at h
      · by_cases hlt : (visibleCells cfg row).length - 1 + 1 < slotsForRow cfg row
        · simp [renderRow, ho, hcond, hemp, hlt, renderCellsAux_edits]
        · simp [renderRow, ho, hcond, hemp, hlt] at h
    · simp only [Bool.not_eq_true] at hcond
      simp [renderRow, ho, hcond, renderCellsAux_edits]
  · simp [renderRow, ho] at h

/-! ### Lemmas about the row loop -/

lemma renderLoop_idx (cfg : Config) :
    ∀ (rows : List (List String)) (j0 : Nat) (iIn : Option Nat),
      ∀ e ∈ (renderLoop cfg rows j0 iIn).1, j0 ≤ Event.idx e := by
  intro rows
  induction rows with
  | nil => intro j0 iIn e he; simp [renderLoop] at he
  | cons row rest ih =>
    intro j0 iIn e he
    rcases herr : (renderRow cfg j0 row iIn).err with _ | er
    · simp only [renderLoop, herr] at he
      rcases List.mem_append.mp he with h1 | h1
      · exact le_of_eq (renderRow_idx cfg j0 row iIn e h1).symm
      · rcases List.mem_cons.mp h1 with rfl | h2
        · exact le_refl _
        · have := ih (j0 + 1) (renderRow cfg j0 row iIn).iOut e h2
          omega
    · simp only [renderLoop, herr] at he
      exact le_of_eq (renderRow_idx cfg j0 row iIn e he).symm

/-- On success, the trace of the row loop started at index `j0` contains,
for each row `k` of the input, exactly that row's visible cells (with
row 0 emphasized), exactly one style injection carrying `styleFor`, and
an Edit button (whose payload is the row's first cell) exactly when
`edit_function and (j != 0 or not has_header)`. -/
lemma renderLoop_spec (cfg : Config) :
    ∀ (rows : List (List String)) (j0 : Nat) (iIn : Option Nat),
      (renderLoop cfg rows j0 iIn).2 = none →
      ∀ (k : Nat) (hk : k < rows.length),
        cellTexts (renderLoop cfg rows j0 iIn).1 (j0 + k)
            = visibleCells cfg (rows.get ⟨k, hk⟩) ∧
        cellEmphs (renderLoop cfg rows j0 iIn).1 (j0 + k)
            = List.replicate (visibleCells cfg (rows.get ⟨k, hk⟩)).length ((j0 + k) == 0) ∧
        stylesAt (renderLoop cfg rows j0 iIn).1 (j0 + k) = [styleFor cfg (j0 + k)] ∧
        (editsAt (renderLoop cfg rows j0 iIn).1 (j0 + k)).map Prod.snd
            = (if cfg.edit_function && ((j0 + k) != 0 || !cfg.has_header)
               then [(rows.get ⟨k, hk⟩).head?] else []) := by
  intro rows
  induction rows with
  | nil => intro j0 iIn _ k hk; exact absurd hk (by simp)
  | cons row rest ih =>
    intro j0 iIn hsucc k hk
    rcases herr : (renderRow cfg j0 row iIn).err with _ | er
    case cons.some => simp [renderLoop, herr] at hsucc
    case cons.none =>
    have hres : (renderLoop cfg (row :: rest) j0 iIn).1
        = (renderRow cfg j0 row iIn).events
          ++ Event.rowStyle j0 (styleFor cfg j0)
            :: (renderLoop cfg rest (j0 + 1) (renderRow cfg j0 row iIn).iOut).1 := by
      simp [renderLoop, herr]
    have hres2 : (renderLoop cfg rest (j0 + 1) (renderRow cfg j0 row iIn).iOut).2 = none := by
      simpa [renderLoop, herr] using hsucc
    cases k with
    | zero =>
      have hnil_t : cellTexts (renderLoop cfg rest (j0 + 1)
          (renderRow cfg j0 row iIn).iOut).1 j0 = [] := by
        apply cellTexts_nil_of_idx
        intro e he
        have := renderLoop_idx cfg rest (j0 + 1) (renderRow cfg j0 row iIn).iOut e he
        omega
      have hnil_e : cellEmphs (renderLoop cfg rest (j0 + 1)
          (renderRow cfg j0 row iIn).iOut).1 j0 = [] := by
        apply cellEmphs_nil_of_idx
        intro e he
        have := renderLoop_idx cfg rest (j0 + 1) (renderRow cfg j0 row iIn).iOut e he
        omega
      have hnil_d : editsAt (renderLoop cfg rest (j0 + 1)
          (renderRow cfg j0 row iIn).iOut).1 j0 = [] := by
        apply editsAt_nil_of_idx
        intro e he
        have := renderLoop_idx cfg rest (j0 + 1) (renderRow cfg j0 row iIn).iOut e he
        omega
      have hnil_s : stylesAt (renderLoop cfg rest (j0 + 1)
          (renderRow cfg j0 row iIn).iOut).1 j0 = [] := by
        apply stylesAt_nil_of_idx
        intro e he
        have := renderLoop_idx cfg rest (j0 + 1) (renderRow cfg j0 row iIn).iOut e he
        omega
      refine ⟨?_, ?_, ?_, ?_⟩
      · rw [hres]
        simp [hnil_t, renderRow_texts cfg j0 row iIn herr]
      · rw [hres]
        simp [hnil_e, renderRow_emphs cfg j0 row iIn herr]
      · rw [hres]
        simp [hnil_s, renderRow_stylesAt]
      · rw [hres]
        simp [hnil_d, renderRow_edits cfg j0 row iIn herr]
    | succ q =>
      have hq : q < rest.length := by simpa using hk
      have harith : j0 + (q + 1) = (j0 + 1) + q := by omega
      have hih := ih (j0 + 1) (renderRow cfg j0 row iIn).iOut hres2 q hq
      have hrow_t := renderRow_texts_ne cfg j0 row iIn (j0 + (q + 1)) (by omega)
      have hrow_e := renderRow_emphs_ne cfg j0 row iIn (j0 + (q + 1)) (by omega)
      have hrow_d := renderRow_edits_ne cfg j0 row iIn (j0 + (q + 1)) (by omega)
      have hrow_s := renderRow_stylesAt cfg j0 row iIn (j0 + (q + 1))
      have hget : (row :: rest).get ⟨q + 1, hk⟩ = rest.get ⟨q, hq⟩ := rfl
      refine ⟨?_, ?_, ?_, ?_⟩
      · rw [hres]
        simp only [cellTexts_append, cellTexts_cons_rowStyle, hrow_t, List.nil_append, hget]
        rw [harith]
        exact hih.1
      · rw [hres]
        simp only [cellEmphs_append, cellEmphs_cons_rowStyle, hrow_e, List.nil_append, hget]
        rw [harith]
        exact hih.2.1
      · rw [hres]
        have hne : ¬ j0 = j0 + (q + 1) := by omega
        simp only [stylesAt_append, stylesAt_cons_rowStyle, hrow_s, List.nil_append,
          if_neg hne]
        rw [harith]
        exact hih.2.2.1
      · rw [hres]
        simp only [editsAt_append, editsAt_cons_rowStyle, hrow_d, List.nil_append, hget]
        rw [harith]
        exact hih.2.2.2

/-- The Bool guard `edit_function and (j != 0 or not has_header)` as a
proposition. -/
lemma edit_cond_iff (cfg : Config) (j : Nat) :
    (cfg.edit_function && (j != 0 || !cfg.has_header)) = true ↔
      (cfg.edit_function = true ∧ (j ≠ 0 ∨ cfg.has_header = false)) := by
  simp [Bool.and_eq_true, Bool.or_eq_true, bne_iff_ne, Bool.not_eq_true']

lemma natStrGo_inj {m n : Nat} (h : natStrGo m m = natStrGo n n) : m = n := by
  have h1 := charsVal_natStrGo m m (le_refl m)
  have h2 := charsVal_natStrGo n n (le_refl n)
  rw [h] at h1
  omega

/-- Distinct row indices give distinct `row_{j}` container keys. -/
lemma rowKey_inj {j j' : Nat} (h : rowKey j = rowKey j') : j = j' := by
  have hd : ("row_".data ++ (natStr j).data) = ("row_".data ++ (natStr j').data) := by
    have := congrArg String.data h
    simpa [rowKey, String.data_append] using this
  exact natStrGo_inj (List.append_cancel_left hd)

/-- Distinct row indices give distinct `edit_{j}` button keys. -/
lemma editKey_inj {j j' : Nat} (h : editKey j = editKey j') : j = j' := by
  have hd : ("edit_".data ++ (natStr j).data) = ("edit_".data ++ (natStr j').data) := by
    have := congrArg String.data h
    simpa [editKey, String.data_append] using this
  exact natStrGo_inj (List.append_cancel_left hd)

/-! ## The claims -/

/-- C1, counterexample: with `edit_function` set and `column_formatting`
absent, the row `["1","Alice","30"]` is allocated 3 column slots —
`len(row)` — although it has only 2 visible cells, so the default slot
count does not equal the visible-cell count as the claim states. -/
theorem C1_counterexample :
    slotsForRow cfgEditHeader ["1", "Alice", "30"] = 3 ∧
    (visibleCells cfgEditHeader ["1", "Alice", "30"]).length = 2 ∧
    slotsForRow cfgEditHeader ["1", "Alice", "30"]
      ≠ (visibleCells cfgEditHeader ["1", "Alice", "30"]).length := by
  decide

/-- C1, amended: when `column_formatting` is absent, the number of column
slots allocated for a row is the row's full cell count `len(row)`,
including the identifier column, whether or not `edit_function` is set
(with `edit_function` set this is one more than the visible cells, which
is where the Edit button goes). -/
theorem C1_default_slot_count (cfg : Config) (row : List String)
    (h : cfg.column_formatting = none) :
    slotsForRow cfg row = row.length := by
  simp [slotsForRow, h]

/-- C1 witness. -/
theorem C1_default_slot_count_witness :
    slotsForRow cfgEditHeader ["1", "Alice", "30"] = 3 := by
  rw [C1_default_slot_count cfgEditHeader ["1", "Alice", "30"] rfl]
  decide

/-- C2, code bug: with `has_header=False` and no callback, the render
succeeds and the single cell of row 0 is still rendered with `"***"`
emphasis — the `j == 0` branch ignores `has_header`, contradicting both
the claim and the function's own docstring ("If True, treats the first
row as a header and applies bold formatting"). -/
theorem C2_emphasis_ignores_has_header :
    (display_table cfgPlainNoHeader [["x"]]).2 = none ∧
    cellEmphs (display_table cfgPlainNoHeader [["x"]]).1 0 = [true] := by
  decide

/-- C3: in a successful render, a row `j` of the table carries an Edit
action exactly when `edit_function` is set and (`j ≠ 0` or `has_header`
is false); in particular row 0 never has one when `has_header` is true,
and no row has one when `edit_function` is unset. -/
theorem C3_edit_action_iff (cfg : Config) (rows : List (List String))
    (hok : (display_table cfg rows).2 = none) (j : Nat) (hj : j < rows.length) :
    editsAt (display_table cfg rows).1 j ≠ [] ↔
      (cfg.edit_function = true ∧ (j ≠ 0 ∨ cfg.has_header = false)) := by
  simp only [display_table] at hok ⊢
  have h := (renderLoop_spec cfg rows 0 none hok j hj).2.2.2
  simp only [Nat.zero_add] at h
  rw [← edit_cond_iff cfg j]
  by_cases hcond : (cfg.edit_function && (j != 0 || !cfg.has_header)) = true
  · rw [if_pos hcond] at h
    constructor
    · intro _
      exact hcond
    · intro _ hnil
      rw [hnil] at h
      simp at h
  · rw [if_neg hcond] at h
    have hnil : editsAt (renderLoop cfg rows 0 none).1 j = [] :=
      List.map_eq_nil_iff.mp h
    constructor
    · intro hne
      exact absurd hnil hne
    · intro hp
      exact absurd hp hcond

/-- C3 witness. -/
theorem C3_edit_action_iff_witness :
    editsAt (display_table cfgEditNoHeader dataAB).1 0 ≠ [] :=
  (C3_edit_action_iff cfgEditNoHeader dataAB (by decide) 0 (by decide)).mpr
    ⟨rfl, Or.inr rfl⟩

/-- C4: with `edit_function` set, a successful render shows for every row
exactly that row's cells with index 0 removed, in order; a row carries at
most one Edit action, and the payload handed to the callback on
activation is the row's original first cell. -/
theorem C4_identifier_hidden_and_passed (cfg : Config) (rows : List (List String))
    (hok : (display_table cfg rows).2 = none) (he : cfg.edit_function = true)
    (j : Nat) (hj : j < rows.length) :
    cellTexts (display_table cfg rows).1 j = (rows.get ⟨j, hj⟩).drop 1 ∧
    (editsAt (display_table cfg rows).1 j).length ≤ 1 ∧
    ∀ p ∈ (editsAt (display_table cfg rows).1 j).map Prod.snd,
      p = (rows.get ⟨j, hj⟩).head? := by
  simp only [display_table] at hok ⊢
  have h := renderLoop_spec cfg rows 0 none hok j hj
  simp only [Nat.zero_add] at h
  refine ⟨?_, ?_, ?_⟩
  · rw [h.1]
    simp [visibleCells, he]
  · have hl := congrArg List.length h.2.2.2
    rw [List.length_map] at hl
    rw [hl]
    split <;> simp
  · intro p hp
    rw [h.2.2.2] at hp
    split at hp <;> simp at hp
    exact hp

/-- C4 witness. -/
theorem C4_identifier_hidden_and_passed_witness :
    cellTexts (display_table cfgEditNoHeader dataAB).1 1 = ["Bob", "25"] := by
  have h := (C4_identifier_hidden_and_passed cfgEditNoHeader dataAB (by decide) rfl 1
    (by decide)).1
  rw [h]
  decide

/-- C5: with `alternating_row_colors=True` and no truthy `header_color`,
a successful render resolves row `j`'s background to the theme's
secondary background color when `j` is even (`(j+1)` odd), and to
`'transparent'` otherwise. -/
theorem C5_alternating_rows (cfg : Config) (rows : List (List String))
    (hok : (display_table cfg rows).2 = none)
    (halt : cfg.alternating_row_colors = true)
    (hhc : strTruthy cfg.header_color = false)
    (j : Nat) (hj : j < rows.length) :
    stylesAt (display_table cfg rows).1 j
      = [if j % 2 = 0 then cfg.secondaryBackgroundColor else "transparent"] := by
  simp only [display_table] at hok ⊢
  have h := (renderLoop_spec cfg rows 0 none hok j hj).2.2.1
  simp only [Nat.zero_add] at h
  rw [h]
  congr 1
  have halts : altStyle cfg j = if j % 2 = 0 then cfg.secondaryBackgroundColor
      else "transparent" := by
    by_cases hj2 : j % 2 = 0
    · have h2 : (j + 1) % 2 = 1 := by omega
      simp [altStyle, halt, h2, hj2]
    · have h2 : (j + 1) % 2 = 0 := by omega
      simp [altStyle, halt, h2, hj2]
  rcases hc : cfg.header_color with _ | c
  · simpa [styleFor, hc] using halts
  · have hce : c = "" := by
      simp [strTruthy, hc] at hhc
      exact hhc
    subst hce
    simpa [styleFor, hc] using halts

/-- C5 witness. -/
theorem C5_alternating_rows_witness :
    stylesAt (display_table cfgAlternating [["a"], ["b"]]).1 0 = ["#f0f2f6"] := by
  have h := C5_alternating_rows cfgAlternating [["a"], ["b"]] (by decide) rfl rfl 0
    (by decide)
  simpa using h

/-- C6: if `header_color` is set to a (non-empty) color, a successful
render resolves row 0's background to exactly that color, whatever
`alternating_row_colors` and `has_header` are; and for every row other
than row 0 the resolved style is the same as if `header_color` were
unset, so the option affects only row 0. -/
theorem C6_header_color_precedence (cfg : Config) (rows : List (List String)) (c : String)
    (hok : (display_table cfg rows).2 = none)
    (hc : cfg.header_color = some c) (hcne : c ≠ "")
    (hrows : 0 < rows.length) :
    stylesAt (display_table cfg rows).1 0 = [c] ∧
    ∀ j : Nat, j ≠ 0 → styleFor cfg j = styleFor { cfg with header_color := none } j := by
  constructor
  · simp only [display_table] at hok ⊢
    have h := (renderLoop_spec cfg rows 0 none hok 0 hrows).2.2.1
    simp only [Nat.zero_add] at h
    rw [h]
    have hb : (c != "") = true := by simp [hcne]
    simp [styleFor, hc, hb]
  · intro j hjne
    have hb : (j == 0) = false := by simp [hjne]
    simp [styleFor, hc, hb, altStyle]

/-- C6 witness. -/
theorem C6_header_color_precedence_witness :
    stylesAt (display_table cfgHeaderColor [["h"], ["d"]]).1 0 = ["red"] :=
  (C6_header_color_precedence cfgHeaderColor [["h"], ["d"]] "red" (by decide) rfl
    (by decide) (by decide)).1

/-- C7, counterexample: with `column_formatting=1` and the row
`["a","b"]`, render places the cell `"a"` and then aborts with a bare
`IndexError` carrying only the offending slot index 1: it neither
validates before placing cells nor reports a configuration error naming
the row and the required versus available slot counts. -/
theorem C7_counterexample :
    (display_table cfgOneSlot [["a", "b"]]).2 = some (.indexError 1) ∧
    cellTexts (display_table cfgOneSlot [["a", "b"]]).1 0 = ["a"] := by
  decide

/-- C7, amended: when `column_formatting` gives a row fewer slots than it
needs, render performs no up-front validation: it places the visible
cells that fit, in order, then raises the host's index-out-of-range
error carrying only the offending slot index — the slot count itself,
both when a cell overflows and when the cells fit exactly but the Edit
action needs one more slot. -/
theorem C7_insufficient_slots (cfg : Config) (j : Nat) (row : List String)
    (iIn : Option Nat) :
    (slotsForRow cfg row < (visibleCells cfg row).length →
      (renderRow cfg j row iIn).err = some (.indexError (slotsForRow cfg row)) ∧
      cellTexts (renderRow cfg j row iIn).events j
        = (visibleCells cfg row).take (slotsForRow cfg row)) ∧
    (slotsForRow cfg row = (visibleCells cfg row).length →
      visibleCells cfg row ≠ [] →
      (cfg.edit_function && (j != 0 || !cfg.has_header)) = true →
      (renderRow cfg j row iIn).err = some (.indexError (slotsForRow cfg row))) := by
  constructor
  · intro hover
    obtain ⟨h1, h2⟩ := renderCellsAux_over j (slotsForRow cfg row) (visibleCells cfg row) 0
      (Nat.zero_le _) (by omega)
    constructor
    · simp [renderRow, h1]
    · simp only [Nat.sub_zero] at h2
      simp [renderRow, h1, h2]
  · intro heq hne hcond
    have h0 : (renderCellsAux j (slotsForRow cfg row) 0 (visibleCells cfg row)).2 = none :=
      (renderCellsAux_err_iff j (slotsForRow cfg row) (visibleCells cfg row) 0).mpr
        (by omega)
    have hlen1 : 1 ≤ (visibleCells cfg row).length := by
      rcases hv : visibleCells cfg row with _ | ⟨a, l⟩
      · exact absurd hv hne
      · simp [hv]
    have hlt : ¬ ((visibleCells cfg row).length - 1 + 1 < slotsForRow cfg row) := by
      omega
    have hsub : (visibleCells cfg row).length - 1 + 1 = slotsForRow cfg row := by
      omega
    simp [renderRow, h0, hcond, hne, hlt, hsub]

/-- C7 witness. -/
theorem C7_insufficient_slots_witness :
    (renderRow cfgOneSlot 0 ["a", "b"] none).err = some (.indexError 1) :=
  ((C7_insufficient_slots cfgOneSlot 0 ["a", "b"] none).1 (by decide)).1

/-- C8, counterexample: two distinct render invocations — different data
and different options — both emit the row-container identity key
`"row_0"`: the generated keys carry no per-table-instance component, so
keys of two tables displayed in one host application are not pairwise
distinct, contrary to the claim. -/
theorem C8_counterexample :
    rowKeysOf (display_table cfgPlainNoHeader [["a"]]).1 = ["row_0"] ∧
    rowKeysOf (display_table cfgAlternating [["x", "y"], ["z", "w"]]).1
      = ["row_0", "row_1"] := by
  decide

/-- C8, amended: within a single invocation, distinct rows do receive
distinct container keys `row_{j}` and distinct button keys `edit_{j}`;
but the keys are derived from the row index alone (and the outer
container key is the constant `"rnd_table"`), so every invocation reuses
the same keys and two tables rendered in one app collide. -/
theorem C8_keys_unique_per_row (j j' : Nat) (h : j ≠ j') :
    rowKey j ≠ rowKey j' ∧ editKey j ≠ editKey j' :=
  ⟨fun he => h (rowKey_inj he), fun he => h (editKey_inj he)⟩

/-- C8 witness. -/
theorem C8_keys_unique_per_row_witness :
    rowKey 0 ≠ rowKey 1 ∧ editKey 0 ≠ editKey 1 :=
  C8_keys_unique_per_row 0 1 (by decide)

/-- C9: the spec's concrete scenario, evaluated: rows
`[["1","Alice","30"],["2","Bob","25"]]` with `has_header=False`,
`edit_function` set and `column_formatting` unset render successfully as
exactly two rows showing visible cells `"Alice","30"` and `"Bob","25"`,
each with one Edit action whose payloads are `"1"` and `"2"`. -/
theorem C9_concrete_scenario :
    (display_table cfgEditNoHeader dataAB).2 = none ∧
    rowKeysOf (display_table cfgEditNoHeader dataAB).1 = ["row_0", "row_1"] ∧
    cellTexts (display_table cfgEditNoHeader dataAB).1 0 = ["Alice", "30"] ∧
    cellTexts (display_table cfgEditNoHeader dataAB).1 1 = ["Bob", "25"] ∧
    (editsAt (display_table cfgEditNoHeader dataAB).1 0).map Prod.snd = [some "1"] ∧
    (editsAt (display_table cfgEditNoHeader dataAB).1 1).map Prod.snd = [some "2"] := by
  decide

/-- C10: when `edit_function` is set and a row that qualifies for the
Edit action has at most one cell (so no visible cells), the button's
slot index is not a trailing slot of that row but the leaked loop
variable from earlier rows plus one: with `i` previously bound to `i₀`
the button goes to slot `i₀+1` (or the indexing raises `IndexError i₀+1`
when out of range), and when no cell has been rendered yet in the whole
call — as for such a first row — render fails with Python's
unbound-variable `NameError` on `i` instead of drawing the button. -/
theorem C10_loop_variable_leak (cfg : Config) (j : Nat) (row : List String)
    (he : cfg.edit_function = true)
    (hq : j ≠ 0 ∨ cfg.has_header = false)
    (hshort : row.length ≤ 1) :
    (renderRow cfg j row none).err = some (.nameError "i") ∧
    (∀ i : Nat, i + 1 < slotsForRow cfg row →
      editsAt (renderRow cfg j row (some i)).events j = [(i + 1, row.head?)]) ∧
    (∀ i : Nat, ¬ i + 1 < slotsForRow cfg row →
      (renderRow cfg j row (some i)).err = some (.indexError (i + 1))) ∧
    (cfg.has_header = false → ∀ rest : List (List String),
      (display_table cfg (row :: rest)).2 = some (.nameError "i")) := by
  have hv : visibleCells cfg row = [] := by
    simp only [visibleCells, he, if_pos]
    exact List.drop_eq_nil_of_le hshort
  have hcond : (cfg.edit_function && (j != 0 || !cfg.has_header)) = true :=
    (edit_cond_iff cfg j).mpr ⟨he, hq⟩
  refine ⟨?_, ?_, ?_, ?_⟩
  · simp [renderRow, hv, hcond, renderCellsAux]
  · intro i hlt
    simp [renderRow, hv, hcond, hlt, renderCellsAux]
  · intro i hlt
    simp [renderRow, hv, hcond, hlt, renderCellsAux]
  · intro hh rest
    simp [display_table, renderLoop, renderRow, hv, he, hh, renderCellsAux]

/-- C10 witness. -/
theorem C10_loop_variable_leak_witness :
    (renderRow cfgThreeSlotsEdit 0 ["id"] none).err = some (.nameError "i") ∧
    editsAt (renderRow cfgThreeSlotsEdit 0 ["id"] (some 0)).events 0
      = [(1, some "id")] := by
  have h := C10_loop_variable_leak cfgThreeSlotsEdit 0 ["id"] rfl (Or.inr rfl) (by decide)
  exact ⟨h.1, h.2.1 0 (by decide)⟩

end EditTable
